import Mathlib

set_option linter.unusedVariables false
set_option maxRecDepth 10000

/-!
Verification of the response-splitting / fallback-synthesis logic of
`app/llm_generator.py` and of the file-upsert logic of
`app/github_utils.py`.

Python strings are modelled as lists of characters (`Str`), Python
exceptions as explicit outcome values, and the two external HTTP
collaborators (the chat-completion endpoint and the source-hosting REST
API) as explicit parameters of the embedded functions.
-/

/-- Python strings, modelled as lists of characters. -/
abbrev Str := List Char

/-- The ASCII whitespace characters removed by Python `str.strip()`
(the inputs in question are ASCII; astral whitespace never arises). -/
def pyIsSpace (c : Char) : Bool :=
  c = ' ' || c = '\t' || c = '\n' || c = '\r' || c = '\x0b' || c = '\x0c'

/-- Python `s.strip()`: drop leading and trailing whitespace. -/
def pyStrip (s : Str) : Str :=
  ((s.dropWhile pyIsSpace).reverse.dropWhile pyIsSpace).reverse

/-- Index of the first occurrence of `t` as a contiguous substring of `s`
(Python `s.find(t)`); `none` when `t` does not occur. -/
def findSub (t : Str) : Str → Option Nat
  | [] => if t.isPrefixOf ([] : Str) then some 0 else none
  | c :: s =>
    if t.isPrefixOf (c :: s) then some 0
    else Option.map (fun i => i + 1) (findSub t s)

/-- Python `t in s`. -/
def containsSub (t s : Str) : Bool := (findSub t s).isSome

/-- The number of positions of `s` at which `t` occurs as a substring
(used to state "the separator occurs exactly once"). -/
def occurrenceCount (t s : Str) : Nat :=
  List.countP (fun i => t.isPrefixOf (s.drop i)) (List.range (s.length + 1))

/-- Python `s.split(sep)` for a non-empty separator, with explicit fuel;
`pySplit` supplies fuel `s.length + 1`, which always suffices because each
split step consumes at least one character of `s`. -/
def pySplitAux (sep : Str) : Nat → Str → List Str
  | 0, s => [s]
  | fuel + 1, s =>
    match findSub sep s with
    | none => [s]
    | some i => s.take i :: pySplitAux sep fuel (s.drop (i + sep.length))

/-- Python `s.split(sep)` (unlimited splits, non-empty separator). -/
def pySplit (sep s : Str) : List Str := pySplitAux sep (s.length + 1) s

/-- Python `s.split(sep, 1)`: split at the first occurrence only. -/
def pySplit1 (sep s : Str) : List Str :=
  match findSub sep s with
  | none => [s]
  | some i => [s.take i, s.drop (i + sep.length)]

/-- Python `sep.join(xs)`. -/
def pyJoin (sep : Str) : List Str → Str
  | [] => []
  | [x] => x
  | x :: xs => x ++ sep ++ pyJoin sep xs

/-- Universal-newline translation applied by Python text-mode reads:
CRLF and lone CR both become LF. -/
def univNL : Str → Str
  | [] => []
  | '\r' :: '\n' :: rest => '\n' :: univNL rest
  | '\r' :: rest => '\n' :: univNL rest
  | c :: rest => c :: univNL rest

/-- The lines produced by iterating a Python text file: each line keeps
its terminating newline; a final chunk without a newline is a line only
when non-empty. -/
def pyFileLines : Str → List Str
  | [] => []
  | c :: rest =>
    if c = '\n' then ['\n'] :: pyFileLines rest
    else
      match pyFileLines rest with
      | [] => [[c]]
      | l :: ls => (c :: l) :: ls

/-- Python `s.replace("\n", "\\n")`: replace each newline character by the
two-character escape sequence backslash-n. -/
def pyReplaceNL : Str → Str
  | [] => []
  | c :: rest =>
    if c = '\n' then '\\' :: 'n' :: pyReplaceNL rest
    else c :: pyReplaceNL rest

/-- Decimal rendering of a natural number, as interpolated by f-strings. -/
def natStr (n : Nat) : Str := (Nat.repr n).data

/-- Python `s.endswith(sfx)`. -/
def pyEndsWith (sfx s : Str) : Bool := sfx.isSuffixOf s

/-- The literal separator token between the HTML and README segments. -/
def sepToken : Str := ("---README.md---").data

/-- The triple-backtick code-fence delimiter. -/
def fenceTok : Str := ("\x60\x60\x60").data

/-- The two-character sequence backslash-n that the source uses as a join
separator: `"\\n"` in the Python source denotes backslash followed by the
letter n, not a newline. -/
def escNL : Str := ("\\n").data

/-- `_strip_code_block` from `app/llm_generator.py` (lines 71-79): when
the text contains a triple-backtick fence, return the stripped second
part of the fence split, else the stripped text. -/
def strip_code_block (text : Str) : Str :=
  if containsSub fenceTok text then
    let parts := pySplit fenceTok text
    if 2 ≤ parts.length then pyStrip (parts.getD 1 []) else pyStrip text
  else pyStrip text

/-- `generate_readme_fallback`, fixed text up to the first interpolation. -/
def readmeHead (round_num : Nat) (brief : Str) : Str :=
  ("# Auto-generated README (Round ").data ++ natStr round_num ++
    (")\n\n**Project brief:** ").data ++ brief ++ ("\n\n**Attachments:**\n").data

/-- `generate_readme_fallback`, fixed text between the attachment summary
and the checks list. -/
def readmeMid : Str := ("\n\n**Checks to meet:**\n").data

/-- `generate_readme_fallback`, fixed text after the checks list. -/
def readmeTail : Str :=
  ("\n\n## Setup\n1. Open \x60index.html\x60 in a browser.\n2. No build steps required.\n\n## Notes\nThis README was generated as a fallback (OpenAI did not return an explicit README).\n").data

/-- `generate_readme_fallback` (lines 81-100).  `checks` is the caller's
list (`checks or []` maps Python `None` to the empty list); the checks are
joined with the literal backslash-n sequence, exactly as the source's
`"\\n".join(checks or [])` does. -/
def generate_readme_fallback (brief : Str) (checks : List Str)
    (attachments_meta : Str) (round_num : Nat) : Str :=
  readmeHead round_num brief ++ attachments_meta ++ readmeMid ++
    pyJoin escNL checks ++ readmeTail

/-- A decoded attachment record, the element shape produced by
`decode_attachments` and consumed by `summarize_attachment_meta`. -/
structure SavedAttachment where
  name : Str
  path : Str
  mime : Str
  size : Nat
deriving DecidableEq

/-- The MIME prefix tested by `mime.startswith("text")`. -/
def textMimeTok : Str := ("text").data

/-- The name suffixes tested by `nm.endswith((".md", ".txt", ".json", ".csv"))`. -/
def previewExts : List Str :=
  [(".md").data, (".txt").data, (".json").data, (".csv").data]

/-- The `.csv` suffix. -/
def csvExt : Str := (".csv").data

/-- The line rendered for an attachment whose preview read failed;
`emsg` models Python's `str(e)` for the caught exception. -/
def couldNotReadLine (nm mime emsg : Str) : Str :=
  ("- ").data ++ nm ++ (" (").data ++ mime ++
    ("): (could not read preview: ").data ++ emsg ++ (")").data

/-- One iteration of the loop of `summarize_attachment_meta`
(lines 51-68).  The file system is modelled as `fs : Str → Option Str`,
mapping a path to the decoded text content of the file there (`none`
means the `open` call raises, with `ioMsg path` modelling `str(e)` of
that error).  A CSV attachment with fewer than three lines makes
`next(f)` raise `StopIteration`, whose `str` is the empty string. -/
def summaryLine (fs : Str → Option Str) (ioMsg : Str → Str)
    (s : SavedAttachment) : Str :=
  if textMimeTok.isPrefixOf s.mime || previewExts.any (fun e => pyEndsWith e s.name) then
    match fs s.path with
    | none => couldNotReadLine s.name s.mime (ioMsg s.path)
    | some raw =>
      let content := univNL raw
      if pyEndsWith csvExt s.name then
        let ls := pyFileLines content
        if 3 ≤ ls.length then
          ("- ").data ++ s.name ++ (" (").data ++ s.mime ++
            ("): preview: ").data ++ pyJoin escNL ((ls.take 3).map pyStrip)
        else couldNotReadLine s.name s.mime []
      else
        ("- ").data ++ s.name ++ (" (").data ++ s.mime ++
          ("): preview: ").data ++ (pyReplaceNL (content.take 1000)).take 1000
  else
    ("- ").data ++ s.name ++ (" (").data ++ s.mime ++ ("): ").data ++
      natStr s.size ++ (" bytes").data

/-- `summarize_attachment_meta` (lines 45-69): one summary line per saved
attachment, joined with the literal backslash-n sequence (the source
writes `"\\n".join(summaries)`). -/
def summarize_attachment_meta (fs : Str → Option Str) (ioMsg : Str → Str)
    (saved : List SavedAttachment) : Str :=
  pyJoin escNL (saved.map (summaryLine fs ioMsg))

/-- `context_note` (lines 111-113): present only when `round_num == 2`
and the previous README is truthy (non-`None` and non-empty). -/
def contextNote (round_num : Nat) (prev_readme : Option Str) : Str :=
  match prev_readme with
  | none => []
  | some pr =>
    if round_num = 2 ∧ pr ≠ [] then
      ("\n### Previous README.md:\n").data ++ pr ++
        ("\n\nRevise and enhance this project according to the new brief below.\n").data
    else []

/-- Python `repr` of one string, as interpolated by `f"...{checks or []}..."`
(plain single-quoted form; the quoting subtleties Python applies to strings
that themselves contain quotes or backslashes play no role in any claim). -/
def pyReprStr (s : Str) : Str :=
  Char.ofNat 39 :: s ++ [Char.ofNat 39]

/-- Python `repr` of a list of strings. -/
def pyReprList (xs : List Str) : Str :=
  ("[").data ++ pyJoin ((", ").data) (xs.map pyReprStr) ++ ("]").data

/-- The fixed output-format rules block of the prompt (lines 132-150). -/
def promptRules : Str :=
  ("### Output format rules:\n1. Produce a complete single-file web application that satisfies the brief requirements.\n2. Output must contain **exactly two parts**:\n   - First part: Complete index.html code (including DOCTYPE, html, head, body tags)\n   - Second part: README.md content (starts after a line containing exactly: ---README.md---)\n3. The index.html must be a SINGLE FILE containing:\n   - All HTML structure\n   - All CSS styles (inline in <style> tags or inline styles)\n   - All JavaScript logic (inline in <script> tags)\n   - Complete functionality to fulfill the brief requirements\n4. README.md must include:\n   - Overview of the application\n   - Setup instructions (just open index.html in browser)\n   - Usage instructions\n   - If Round 2, describe improvements made from previous version.\n5. Do not include any commentary outside the HTML code or README content.\n6. The index.html must be completely self-contained - no external dependencies except CDN links if specifically requested.\n7. Use the separator line \"---README.md---\" exactly as shown to separate the two parts.\n").data

/-- The composed prompt `user_prompt` (lines 115-150). -/
def user_prompt (brief : Str) (checks : List Str) (attachments_meta : Str)
    (round_num : Nat) (prev_readme : Option Str) : Str :=
  ("\nYou are a professional web developer assistant.\n\n### Round\n").data ++
    natStr round_num ++ ("\n\n### Task\n").data ++ brief ++ ("\n\n").data ++
    contextNote round_num prev_readme ++
    ("\n\n### Attachments (if any)\n").data ++ attachments_meta ++
    ("\n\n### Evaluation checks\n").data ++ pyReprList checks ++
    ("\n\n").data ++ promptRules

/-- The HTML half of the synthesized fallback response (lines 182-190),
up to and including the blank line before the separator. -/
def fallbackHtmlPart (brief : Str) : Str :=
  ("\n<html>\n  <head><title>Fallback App</title></head>\n  <body>\n    <h1>Hello (fallback)</h1>\n    <p>This app was generated as a fallback because OpenAI/AIPipe failed. Brief: ").data ++
    brief ++ ("</p>\n  </body>\n</html>\n\n").data

/-- The full synthesized fallback response text (lines 182-193). -/
def fallbackText (brief : Str) (checks : List Str) (attachments_meta : Str)
    (round_num : Nat) : Str :=
  fallbackHtmlPart brief ++ sepToken ++
    ('\n' :: generate_readme_fallback brief checks attachments_meta round_num) ++
    [('\n' : Char)]

/-- The possible outcomes of the single upstream chat-completion call
(lines 152-193).  `ok` is a 200 response whose `choices[0].message.content`
is the given text (the source's `or ""` maps a null content to the empty
string, which `ok []` covers); `missingContent` is a 200 response lacking
that field, in which case the source substitutes `str(data)`; the other
three constructors raise inside the `try` block and are caught by the
`except`, which substitutes the synthesized fallback text. -/
inductive UpstreamOutcome where
  | ok (content : Str)
  | missingContent (dataStr : Str)
  | non200 (status : Nat) (body : Str)
  | transportError
  | noToken

/-- Whether the outcome takes the `except` path of lines 180-193. -/
def isFallbackOutcome : UpstreamOutcome → Bool
  | .ok _ => false
  | .missingContent _ => false
  | .non200 _ _ => true
  | .transportError => true
  | .noToken => true

/-- The text handed to the response parser (lines 174-193). -/
def responseText (brief : Str) (checks : List Str) (attachments_meta : Str)
    (round_num : Nat) : UpstreamOutcome → Str
  | .ok c => c
  | .missingContent d => d
  | .non200 _ _ => fallbackText brief checks attachments_meta round_num
  | .transportError => fallbackText brief checks attachments_meta round_num
  | .noToken => fallbackText brief checks attachments_meta round_num

/-- The document-start tokens of line 211. -/
def docStartToks : List Str := [("<").data, ("<!DOCTYPE").data, ("<html").data]

/-- The skeleton text preceding the embedded content (lines 213-220). -/
def wrapPre : Str :=
  ("<!DOCTYPE html>\n<html lang=\"en\">\n<head>\n    <meta charset=\"UTF-8\">\n    <meta name=\"viewport\" content=\"width=device-width, initial-scale=1.0\">\n    <title>Generated App</title>\n</head>\n<body>\n").data

/-- The skeleton text following the embedded content (lines 222-223). -/
def wrapSuf : Str := ("\n</body>\n</html>").data

/-- Lines 210-223: wrap `code_part` in a minimal HTML5 skeleton when its
stripped form starts with none of the document-start tokens. -/
def htmlRepair (code_part : Str) : Str :=
  if docStartToks.any (fun t => t.isPrefixOf (pyStrip code_part)) then code_part
  else wrapPre ++ code_part ++ wrapSuf

/-- Lines 195-208: split the response text at the first separator
occurrence into the HTML candidate and the README candidate; when the
separator is absent (or the split does not yield exactly two parts,
a branch `pySplit1` can never take) substitute the fallback README. -/
def splitResponse (brief : Str) (checks : List Str) (attachments_meta : Str)
    (round_num : Nat) (text : Str) : Str × Str :=
  if containsSub sepToken text then
    let parts := pySplit1 sepToken text
    if parts.length = 2 then
      (strip_code_block (pyStrip (parts.getD 0 [])),
       strip_code_block (pyStrip (parts.getD 1 [])))
    else
      (strip_code_block text,
       generate_readme_fallback brief checks attachments_meta round_num)
  else
    (strip_code_block text,
     generate_readme_fallback brief checks attachments_meta round_num)

/-- The two files returned by `generate_app_code`. -/
structure GenFiles where
  indexHtml : Str
  readme : Str
deriving DecidableEq

/-- `generate_app_code` (lines 102-233), modelled at the boundary where
the attachment summary string has already been computed (in the source it
is `summarize_attachment_meta(decode_attachments(attachments))`; the
decoder's file writes are the only part of the routine not embedded
here).  The upstream call is abstracted by `o : UpstreamOutcome`; the
composed `user_prompt` reaches the outside world only through that call.
The returned `attachments` list is the saved list, passed through
unchanged. -/
def generate_app_code (brief : Str) (checks : List Str)
    (attachments_meta : Str) (round_num : Nat) (prev_readme : Option Str)
    (o : UpstreamOutcome) : GenFiles :=
  let text := responseText brief checks attachments_meta round_num o
  let parsed := splitResponse brief checks attachments_meta round_num text
  { indexHtml := htmlRepair parsed.1, readme := parsed.2 }

/-- Specification-side reading of code-fence stripping (for the claim
about `_strip_code_block`): the content of the first fenced block, i.e.
the text strictly between the first occurrence of the delimiter and the
next one, extending to the end of the string when no second occurrence
exists. -/
def firstFencedContent (text : Str) : Option Str :=
  match findSub fenceTok text with
  | none => none
  | some i =>
    let rest := text.drop (i + fenceTok.length)
    match findSub fenceTok rest with
    | none => some rest
    | some j => some (rest.take j)

/-- A repository handle: the dict/object duck-typed `repo` parameter of
`github_utils.py`, normalized to its two fields. -/
structure RepoHandle where
  name : Str
  full_name : Str
deriving DecidableEq

/-- A PUT request to the contents endpoint; `sha` is the optimistic-
concurrency token carried on updates.  The base64 transport encoding of
the body is injective and claim-irrelevant, so `content` is carried
verbatim. -/
structure PutReq where
  full_name : Str
  path : Str
  message : Str
  content : Str
  sha : Option Str
deriving DecidableEq

/-- The remote API as seen by one upsert call: the status of the initial
GET, the `sha` field of its JSON body (read only on status 200), and the
status the server returns for a given PUT request. -/
structure GhEnv where
  getStatus : Nat
  getSha : Str
  putStatus : PutReq → Nat

/-- Whether the upsert call returned normally or raised. -/
inductive UpsertResult where
  | ok
  | raised
deriving DecidableEq

/-- `create_or_update_file` (`github_utils.py` lines 63-116).  The second
component records the PUT request issued, if any; raising is modelled by
`UpsertResult.raised` (the function's `except` clause logs and re-raises,
so every failure propagates to the caller). -/
def create_or_update_file (env : GhEnv) (repo : RepoHandle)
    (path content message : Str) : UpsertResult × Option PutReq :=
  if env.getStatus = 200 then
    let req : PutReq := ⟨repo.full_name, path, message, content, some env.getSha⟩
    (if env.putStatus req = 200 then UpsertResult.ok else UpsertResult.raised, some req)
  else if env.getStatus = 404 then
    let req : PutReq := ⟨repo.full_name, path, message, content, none⟩
    (if env.putStatus req = 201 then UpsertResult.ok else UpsertResult.raised, some req)
  else (UpsertResult.raised, none)

/-- `create_or_update_binary_file` (lines 119-178): the same branching,
but every failure returns `false` instead of raising, and success returns
`true`. -/
def create_or_update_binary_file (env : GhEnv) (repo : RepoHandle)
    (path content message : Str) : Bool × Option PutReq :=
  if env.getStatus = 200 then
    let req : PutReq := ⟨repo.full_name, path, message, content, some env.getSha⟩
    (env.putStatus req == 200, some req)
  else if env.getStatus = 404 then
    let req : PutReq := ⟨repo.full_name, path, message, content, none⟩
    (env.putStatus req == 201, some req)
  else (false, none)

/-! ### Helper lemmas about substring search -/

theorem findSub_isPrefixOf {t : Str} :
    ∀ {s : Str} {i : Nat}, findSub t s = some i → t.isPrefixOf (s.drop i) = true := by
  intro s
  induction s with
  | nil =>
    intro i h
    simp only [findSub] at h
    split at h
    · cases h
      simpa using (by assumption : t.isPrefixOf ([] : Str) = true)
    · cases h
  | cons c s ih =>
    intro i h
    simp only [findSub] at h
    split at h
    · cases h
      simpa using (by assumption : t.isPrefixOf (c :: s) = true)
    · cases hm : findSub t s with
      | none => rw [hm] at h; cases h
      | some j =>
        rw [hm] at h
        simp only [Option.map_some'] at h
        cases h
        simpa using ih hm

theorem findSub_minimal {t : Str} :
    ∀ {s : Str} {i : Nat}, findSub t s = some i →
      ∀ j, j < i → t.isPrefixOf (s.drop j) = false := by
  intro s
  induction s with
  | nil =>
    intro i h j hj
    simp only [findSub] at h
    split at h
    · cases h; omega
    · cases h
  | cons c s ih =>
    intro i h j hj
    simp only [findSub] at h
    split at h
    · cases h; omega
    · cases hm : findSub t s with
      | none => rw [hm] at h; cases h
      | some k =>
        rw [hm] at h
        simp only [Option.map_some'] at h
        cases h
        cases j with
        | zero =>
          have hneg : ¬ t.isPrefixOf (c :: s) = true := by assumption
          simp only [List.drop_zero]
          exact Bool.eq_false_iff.mpr hneg
        | succ j' =>
          have := ih hm j' (by omega)
          simpa using this

theorem findSub_exists_of_isPrefixOf {t : Str} :
    ∀ {s : Str} {i : Nat}, t.isPrefixOf (s.drop i) = true →
      ∃ j, findSub t s = some j ∧ j ≤ i := by
  intro s
  induction s with
  | nil =>
    intro i h
    have h0 : t.isPrefixOf ([] : Str) = true := by
      have : List.drop i ([] : List Char) = [] := List.drop_eq_nil_of_eq_nil rfl
      rwa [this] at h
    exact ⟨0, by simp [findSub, h0], Nat.zero_le _⟩
  | cons c s ih =>
    intro i h
    by_cases h0 : t.isPrefixOf (c :: s) = true
    · exact ⟨0, by simp [findSub, h0], Nat.zero_le _⟩
    · cases i with
      | zero => simp only [List.drop_zero] at h; exact absurd h h0
      | succ i' =>
        simp only [List.drop_succ_cons] at h
        obtain ⟨j, hj, hle⟩ := ih h
        refine ⟨j + 1, ?_, by omega⟩
        simp [findSub, h0, hj]

theorem containsSub_of_isPrefixOf {t s : Str} {i : Nat}
    (h : t.isPrefixOf (s.drop i) = true) : containsSub t s = true := by
  obtain ⟨j, hj, _⟩ := findSub_exists_of_isPrefixOf h
  simp [containsSub, hj]

theorem occursAt_le_length {t s : Str} {i : Nat} (ht : t ≠ [])
    (h : t.isPrefixOf (s.drop i) = true) : i ≤ s.length := by
  by_contra hlt
  have hnil : s.drop i = [] := List.drop_eq_nil_of_le (by omega)
  rw [hnil] at h
  rw [List.isPrefixOf_iff_prefix] at h
  exact ht (List.prefix_nil.mp h)

theorem occurrenceCount_unique {t s : Str} (h : occurrenceCount t s = 1)
    {i j : Nat} (hi : t.isPrefixOf (s.drop i) = true)
    (hj : t.isPrefixOf (s.drop j) = true)
    (hi' : i ≤ s.length) (hj' : j ≤ s.length) : i = j := by
  unfold occurrenceCount at h
  rw [List.countP_eq_length_filter] at h
  obtain ⟨a, ha⟩ := List.length_eq_one.mp h
  have hmi : i ∈ List.filter (fun k => t.isPrefixOf (s.drop k)) (List.range (s.length + 1)) := by
    rw [List.mem_filter, List.mem_range]
    exact ⟨by omega, hi⟩
  have hmj : j ∈ List.filter (fun k => t.isPrefixOf (s.drop k)) (List.range (s.length + 1)) := by
    rw [List.mem_filter, List.mem_range]
    exact ⟨by omega, hj⟩
  rw [ha, List.mem_singleton] at hmi hmj
  omega

/-- The first occurrence in `A ++ t ++ B` is at `A.length` as soon as no
occurrence starts earlier. -/
theorem findSub_boundary {t A B : Str}
    (hmin : ∀ j, j < A.length → t.isPrefixOf ((A ++ t ++ B).drop j) = false) :
    findSub t (A ++ t ++ B) = some A.length := by
  have hocc : t.isPrefixOf ((A ++ t ++ B).drop A.length) = true := by
    rw [List.append_assoc, List.drop_left]
    rw [List.isPrefixOf_iff_prefix]
    exact List.prefix_append t B
  obtain ⟨j, hj, hle⟩ := findSub_exists_of_isPrefixOf hocc
  rcases Nat.lt_or_ge j A.length with hlt | hge
  · have := hmin j hlt
    have := findSub_isPrefixOf hj
    simp_all
  · have : j = A.length := by omega
    rwa [this] at hj

/-! ### Helper lemmas about stripping -/

theorem mem_dropWhile_of_mem {p : Char → Bool} :
    ∀ {l : Str} {c : Char}, c ∈ l → p c = false → c ∈ l.dropWhile p := by
  intro l
  induction l with
  | nil => intro c h _; cases h
  | cons x xs ih =>
    intro c h hc
    by_cases hx : p x = true
    · rw [List.dropWhile_cons_of_pos hx]
      rcases List.mem_cons.mp h with rfl | hmem
      · rw [hx] at hc; cases hc
      · exact ih hmem hc
    · rw [List.dropWhile_cons_of_neg hx]
      exact h

theorem mem_pyStrip {s : Str} {c : Char} (h : c ∈ s)
    (hc : pyIsSpace c = false) : c ∈ pyStrip s := by
  unfold pyStrip
  rw [List.mem_reverse]
  apply mem_dropWhile_of_mem _ hc
  rw [List.mem_reverse]
  exact mem_dropWhile_of_mem h hc

theorem pyStrip_ne_nil {s : Str} {c : Char} (h : c ∈ s)
    (hc : pyIsSpace c = false) : pyStrip s ≠ [] :=
  List.ne_nil_of_mem (mem_pyStrip h hc)

theorem dropWhile_eq_drop (p : Char → Bool) :
    ∀ l : Str, ∃ k, l.dropWhile p = l.drop k := by
  intro l
  induction l with
  | nil => exact ⟨0, rfl⟩
  | cons x xs ih =>
    by_cases hx : p x = true
    · obtain ⟨k, hk⟩ := ih
      exact ⟨k + 1, by rw [List.dropWhile_cons_of_pos hx, List.drop_succ_cons, hk]⟩
    · exact ⟨0, by rw [List.dropWhile_cons_of_neg hx, List.drop_zero]⟩

theorem containsSub_drop {t s : Str} {k : Nat}
    (h : containsSub t (s.drop k) = true) : containsSub t s = true := by
  unfold containsSub at h
  cases hm : findSub t (s.drop k) with
  | none => rw [hm] at h; cases h
  | some i =>
    have := findSub_isPrefixOf hm
    rw [List.drop_drop] at this
    exact containsSub_of_isPrefixOf this

theorem containsSub_take {t s : Str} {n : Nat}
    (h : containsSub t (s.take n) = true) : containsSub t s = true := by
  unfold containsSub at h
  cases hm : findSub t (s.take n) with
  | none => rw [hm] at h; cases h
  | some i =>
    have hp := findSub_isPrefixOf hm
    rw [List.drop_take, List.isPrefixOf_iff_prefix] at hp
    have : t <+: s.drop i :=
      hp.trans (List.take_prefix _ _)
    rw [← List.isPrefixOf_iff_prefix] at this
    exact containsSub_of_isPrefixOf this

/-- `pyStrip s` is a contiguous segment of `s`: a take of a drop. -/
theorem pyStrip_eq_take_drop (s : Str) :
    ∃ k n, pyStrip s = (s.drop k).take n := by
  obtain ⟨k, hk⟩ := dropWhile_eq_drop pyIsSpace s
  obtain ⟨m, hm⟩ := dropWhile_eq_drop pyIsSpace (s.drop k).reverse
  refine ⟨k, (s.drop k).length - m, ?_⟩
  unfold pyStrip
  rw [hk, hm, List.drop_reverse, List.reverse_reverse]

theorem containsSub_pyStrip {t s : Str}
    (h : containsSub t (pyStrip s) = true) : containsSub t s = true := by
  obtain ⟨k, n, he⟩ := pyStrip_eq_take_drop s
  rw [he] at h
  exact containsSub_drop (containsSub_take h)

/-! ### Helper lemmas about splitting -/

theorem pySplitAux_ne_nil (sep : Str) : ∀ (fuel : Nat) (s : Str),
    pySplitAux sep fuel s ≠ [] := by
  intro fuel s
  cases fuel with
  | zero => simp [pySplitAux]
  | succ n =>
    simp only [pySplitAux]
    cases findSub sep s with
    | none => simp
    | some i => simp

theorem pySplitAux_of_none {sep s : Str} (h : findSub sep s = none) :
    ∀ fuel, pySplitAux sep fuel s = [s] := by
  intro fuel
  cases fuel with
  | zero => rfl
  | succ n => simp [pySplitAux, h]

theorem pySplitAux_of_some {sep s : Str} {i : Nat} (h : findSub sep s = some i) :
    ∀ fuel, pySplitAux sep (fuel + 1) s =
      s.take i :: pySplitAux sep fuel (s.drop (i + sep.length)) := by
  intro fuel
  simp [pySplitAux, h]

theorem isPrefixOf_nil_eq_nil {t : Str} (h : t.isPrefixOf ([] : Str) = true) :
    t = [] := by
  rw [List.isPrefixOf_iff_prefix] at h
  exact List.prefix_nil.mp h

theorem findSub_ne_nil {t s : Str} {i : Nat} (h : findSub t s = some i)
    (ht : t ≠ []) : s ≠ [] := by
  intro rfl_s
  subst rfl_s
  simp only [findSub] at h
  split at h
  · exact ht (isPrefixOf_nil_eq_nil (by assumption))
  · cases h

/-- `pyStrip` keeps a non-whitespace head character in place. -/
theorem pyStrip_cons_of_not_space {c : Char} (hc : pyIsSpace c = false)
    (l : Str) : ∃ r, pyStrip (c :: l) = c :: r := by
  unfold pyStrip
  rw [List.dropWhile_cons_of_neg (by simp [hc])]
  obtain ⟨k, hk⟩ := dropWhile_eq_drop pyIsSpace (c :: l).reverse
  rw [hk]
  have hmem : c ∈ (c :: l).reverse.drop k := by
    rw [← hk]
    apply mem_dropWhile_of_mem _ hc
    rw [List.mem_reverse]
    exact List.mem_cons_self c l
  have hk_le : k ≤ l.length := by
    by_contra hgt
    have : (c :: l).reverse.drop k = [] :=
      List.drop_eq_nil_of_le (by simp; omega)
    rw [this] at hmem
    cases hmem
  have hrev : (c :: l).reverse = l.reverse ++ [c] := by simp
  rw [hrev, List.drop_append_of_le_length (by simp [hk_le])]
  exact ⟨(l.reverse.drop k).reverse, by simp⟩

/-- Splitting `containsSub` across a cons cell. -/
theorem containsSub_cons {t : Str} {c : Char} {s : Str}
    (h : containsSub t (c :: s) = true) :
    t.isPrefixOf (c :: s) = true ∨ containsSub t s = true := by
  unfold containsSub findSub at h
  by_cases hp : t.isPrefixOf (c :: s) = true
  · exact Or.inl hp
  · right
    rw [if_neg hp] at h
    unfold containsSub
    cases hm : findSub t s with
    | none => rw [hm] at h; cases h
    | some j => simp

/-- The repaired HTML document is never empty. -/
theorem htmlRepair_ne_nil (cp : Str) : htmlRepair cp ≠ [] := by
  unfold htmlRepair
  split
  · intro hnil
    subst hnil
    have hfalse : docStartToks.any (fun t => t.isPrefixOf (pyStrip [])) = false := by decide
    simp_all
  · intro hnil
    rw [List.append_assoc, List.append_eq_nil] at hnil
    exact absurd hnil.1 (by decide)

/-! ### Claim theorems -/

/-- C8: for every text containing the separator token `---README.md---`,
splitting at the first occurrence with a maximum of one split yields
exactly two parts, so the branch of `splitResponse` that handles any
other number of parts (substituting the fallback README) is unreachable. -/
theorem splitter_always_two_parts (text : Str)
    (h : containsSub sepToken text = true) :
    (pySplit1 sepToken text).length = 2 := by
  unfold containsSub at h
  cases hm : findSub sepToken text with
  | none => rw [hm] at h; cases h
  | some i => simp [pySplit1, hm]

theorem splitter_always_two_parts_witness :
    containsSub sepToken (("a---README.md---b").data) = true ∧
    (pySplit1 sepToken (("a---README.md---b").data)).length = 2 :=
  ⟨by decide, splitter_always_two_parts (("a---README.md---b").data) (by decide)⟩

/-- C7: with round number 1 the previous README has no influence: the
composed prompt and the generation result are identical across any two
values of `prev_readme`, all other inputs and the upstream outcome
being equal. -/
theorem round_one_ignores_prev_readme (brief : Str) (checks : List Str)
    (attachments_meta : Str) (prev1 prev2 : Option Str) (o : UpstreamOutcome) :
    user_prompt brief checks attachments_meta 1 prev1 =
      user_prompt brief checks attachments_meta 1 prev2 ∧
    generate_app_code brief checks attachments_meta 1 prev1 o =
      generate_app_code brief checks attachments_meta 1 prev2 o := by
  constructor
  · have h1 : contextNote 1 prev1 = [] := by
      cases prev1 with
      | none => rfl
      | some pr => simp [contextNote]
    have h2 : contextNote 1 prev2 = [] := by
      cases prev2 with
      | none => rfl
      | some pr => simp [contextNote]
    unfold user_prompt
    rw [h1, h2]
  · rfl

/-- C3: when the response text does not contain the separator token, the
returned README is the fallback template rendering of the given brief,
checks, attachment summary and round number, and the returned index.html
is the trimmed, code-fence-stripped full raw text, wrapped in the HTML
skeleton when it lacks a document-start token (`htmlRepair`). -/
theorem no_separator_fallback_readme (brief : Str) (checks : List Str)
    (attachments_meta : Str) (round_num : Nat) (prev : Option Str)
    (text : Str) (h : containsSub sepToken text = false) :
    (generate_app_code brief checks attachments_meta round_num prev
        (.ok text)).readme =
      generate_readme_fallback brief checks attachments_meta round_num ∧
    (generate_app_code brief checks attachments_meta round_num prev
        (.ok text)).indexHtml = htmlRepair (strip_code_block text) := by
  unfold generate_app_code responseText splitResponse
  simp [h]

theorem no_separator_fallback_readme_witness :
    containsSub sepToken (("plain text, no marker").data) = false ∧
    (generate_app_code (("Todo").data) [] [] 1 none
        (.ok (("plain text, no marker").data))).readme =
      generate_readme_fallback (("Todo").data) [] [] 1 :=
  ⟨by decide,
   (no_separator_fallback_readme (("Todo").data) [] [] 1 none
      (("plain text, no marker").data) (by decide)).1⟩

/-- C4: wrapping law of the output repairer: when the stripped form of
`code_part` starts with no document-start token, the repaired index.html
begins with the literal `<!DOCTYPE html>` and contains the original
`code_part` verbatim as a substring; when `code_part` itself starts with
such a token, the repaired index.html is `code_part` unchanged. -/
theorem html_repair_wrapping_law (code_part : Str) :
    (docStartToks.any (fun t => t.isPrefixOf (pyStrip code_part)) = false →
       (("<!DOCTYPE html>").data).isPrefixOf (htmlRepair code_part) = true ∧
       containsSub code_part (htmlRepair code_part) = true) ∧
    (docStartToks.any (fun t => t.isPrefixOf code_part) = true →
       htmlRepair code_part = code_part) := by
  constructor
  · intro hno
    have hrep : htmlRepair code_part = wrapPre ++ code_part ++ wrapSuf := by
      unfold htmlRepair
      rw [if_neg (by simp [hno])]
    constructor
    · rw [hrep, List.isPrefixOf_iff_prefix]
      have h1 : (("<!DOCTYPE html>").data) <+: wrapPre := by
        rw [← List.isPrefixOf_iff_prefix]
        decide
      have h2 : wrapPre <+: wrapPre ++ code_part ++ wrapSuf := by
        rw [List.append_assoc]
        exact List.prefix_append _ _
      exact h1.trans h2
    · rw [hrep]
      apply containsSub_of_isPrefixOf (i := wrapPre.length)
      rw [List.append_assoc, List.drop_left, List.isPrefixOf_iff_prefix]
      exact List.prefix_append _ _
  · intro hyes
    rw [List.any_eq_true] at hyes
    obtain ⟨t, hmem, hpre⟩ := hyes
    rw [List.isPrefixOf_iff_prefix] at hpre
    have hstart : ∃ r, code_part = '<' :: r := by
      have hlt : ∃ t', t = '<' :: t' := by
        fin_cases hmem
        · exact ⟨[], by decide⟩
        · exact ⟨("!DOCTYPE").data, by decide⟩
        · exact ⟨("html").data, by decide⟩
      obtain ⟨t', rfl⟩ := hlt
      cases hcp : code_part with
      | nil =>
        rw [hcp, List.prefix_nil] at hpre
        cases hpre
      | cons c cp =>
        rw [hcp, List.cons_prefix_cons] at hpre
        exact ⟨cp, by rw [hpre.1]⟩
    obtain ⟨r, rfl⟩ := hstart
    obtain ⟨r', hstrip⟩ := pyStrip_cons_of_not_space (c := '<') (by decide) r
    have hcond : docStartToks.any (fun t => t.isPrefixOf (pyStrip ('<' :: r))) = true := by
      rw [List.any_eq_true]
      refine ⟨("<").data, by decide, ?_⟩
      rw [hstrip, List.isPrefixOf_iff_prefix]
      exact ⟨r', rfl⟩
    unfold htmlRepair
    rw [if_pos hcond]

theorem html_repair_wrapping_law_witness :
    (docStartToks.any (fun t => t.isPrefixOf (pyStrip (("hello").data))) = false ∧
     (("<!DOCTYPE html>").data).isPrefixOf (htmlRepair (("hello").data)) = true ∧
     containsSub (("hello").data) (htmlRepair (("hello").data)) = true) ∧
    (docStartToks.any (fun t => t.isPrefixOf (("<div>hi</div>").data)) = true ∧
     htmlRepair (("<div>hi</div>").data) = ("<div>hi</div>").data) :=
  ⟨⟨by decide, (html_repair_wrapping_law (("hello").data)).1 (by decide)⟩,
   ⟨by decide, (html_repair_wrapping_law (("<div>hi</div>").data)).2 (by decide)⟩⟩

/-- When the fence occurs, `strip_code_block` strips the head of the
remainder of the full fence split. -/
theorem strip_code_block_eq_of_some {text : Str} {i : Nat}
    (hm : findSub fenceTok text = some i) :
    strip_code_block text =
      pyStrip ((pySplitAux fenceTok text.length
        (text.drop (i + fenceTok.length))).getD 0 []) := by
  have hcontains : containsSub fenceTok text = true := by
    simp [containsSub, hm]
  have hsplit1 : pySplit fenceTok text =
      text.take i :: pySplitAux fenceTok text.length (text.drop (i + fenceTok.length)) := by
    unfold pySplit
    rw [pySplitAux_of_some hm]
  unfold strip_code_block
  rw [if_pos hcontains]
  simp only [hsplit1]
  have hlen : 2 ≤ (text.take i :: pySplitAux fenceTok text.length
      (text.drop (i + fenceTok.length))).length := by
    have := List.length_pos.mpr
      (pySplitAux_ne_nil fenceTok text.length (text.drop (i + fenceTok.length)))
    simp only [List.length_cons]
    omega
  rw [if_pos hlen, List.getD_cons_succ]

/-- C5: for every segment containing the triple-backtick delimiter,
`_strip_code_block` returns the stripped text lying between the first and
second occurrence of the delimiter — the content of the first fenced
block, extending to the end of the segment when no second occurrence
exists; for every segment without the delimiter, it returns the segment
unchanged except for trimming surrounding whitespace. -/
theorem strip_code_block_first_fenced (text : Str) :
    (∀ inner, firstFencedContent text = some inner →
       strip_code_block text = pyStrip inner) ∧
    (firstFencedContent text = none → strip_code_block text = pyStrip text) := by
  cases hm : findSub fenceTok text with
  | none =>
    constructor
    · intro inner hinner
      unfold firstFencedContent at hinner
      rw [hm] at hinner
      cases hinner
    · intro _
      unfold strip_code_block
      rw [if_neg (by simp [containsSub, hm])]
  | some i =>
    have htext_ne : text ≠ [] := findSub_ne_nil hm (by decide)
    obtain ⟨len, hlen⟩ : ∃ len, text.length = len + 1 := by
      cases htl : text with
      | nil => exact absurd htl htext_ne
      | cons c cs => exact ⟨cs.length, by simp⟩
    have hkey := strip_code_block_eq_of_some hm
    constructor
    · intro inner hinner
      unfold firstFencedContent at hinner
      rw [hm] at hinner
      simp only at hinner
      cases hr : findSub fenceTok (text.drop (i + fenceTok.length)) with
      | none =>
        rw [hr] at hinner
        cases hinner
        rw [hkey, pySplitAux_of_none hr]
        rfl
      | some j =>
        rw [hr] at hinner
        cases hinner
        rw [hkey, hlen, pySplitAux_of_some hr]
        rfl
    · intro hnone
      unfold firstFencedContent at hnone
      rw [hm] at hnone
      simp only at hnone
      cases hr : findSub fenceTok (text.drop (i + fenceTok.length)) with
      | none => rw [hr] at hnone; cases hnone
      | some j => rw [hr] at hnone; cases hnone

theorem strip_code_block_first_fenced_witness :
    (firstFencedContent (("pre \x60\x60\x60html\ncode\x60\x60\x60 post").data) =
       some (("html\ncode").data) ∧
     strip_code_block (("pre \x60\x60\x60html\ncode\x60\x60\x60 post").data) =
       pyStrip (("html\ncode").data)) ∧
    (firstFencedContent (("  plain segment  ").data) = none ∧
     strip_code_block (("  plain segment  ").data) =
       pyStrip (("  plain segment  ").data)) :=
  ⟨⟨by decide,
    (strip_code_block_first_fenced (("pre \x60\x60\x60html\ncode\x60\x60\x60 post").data)).1
      (("html\ncode").data) (by decide)⟩,
   ⟨by decide,
    (strip_code_block_first_fenced (("  plain segment  ").data)).2 (by decide)⟩⟩

/-- On a 200 response with content `text`, `generate_app_code` is the
repair step applied to the split of `text`. -/
theorem generate_app_code_ok_eq (brief : Str) (checks : List Str)
    (attachments_meta : Str) (round_num : Nat) (prev : Option Str)
    (text : Str) :
    generate_app_code brief checks attachments_meta round_num prev (.ok text) =
      { indexHtml := htmlRepair
          (splitResponse brief checks attachments_meta round_num text).1,
        readme := (splitResponse brief checks attachments_meta round_num text).2 } :=
  rfl

/-- When the one-shot split of `text` is `[A, B]`, `splitResponse`
strips both halves. -/
theorem splitResponse_pair {text A B : Str} (brief : Str) (checks : List Str)
    (attachments_meta : Str) (round_num : Nat)
    (hcontains : containsSub sepToken text = true)
    (hps : pySplit1 sepToken text = [A, B]) :
    splitResponse brief checks attachments_meta round_num text =
      (strip_code_block (pyStrip A), strip_code_block (pyStrip B)) := by
  unfold splitResponse
  rw [if_pos hcontains]
  simp only [hps, List.length_cons, List.length_nil, List.getD_cons_zero,
    List.getD_cons_succ]
  rw [if_pos (by norm_num)]

/-- C1 (amended): when the separator token occurs exactly once, writing
the response text as `A ++ sepToken ++ B`, the returned README equals the
text after the separator after code-fence stripping and trimming, and the
returned index.html equals the text before the separator after code-fence
stripping and trimming *followed by the HTML repair step* (`htmlRepair`:
the identity whenever the stripped text starts with a document-start
token, the skeleton wrapping otherwise).  Matching is case-sensitive at
the first occurrence. -/
theorem separator_once_split_exact (A B brief : Str) (checks : List Str)
    (attachments_meta : Str) (round_num : Nat) (prev : Option Str)
    (h : occurrenceCount sepToken (A ++ sepToken ++ B) = 1) :
    (generate_app_code brief checks attachments_meta round_num prev
        (.ok (A ++ sepToken ++ B))).readme = strip_code_block (pyStrip B) ∧
    (generate_app_code brief checks attachments_meta round_num prev
        (.ok (A ++ sepToken ++ B))).indexHtml =
      htmlRepair (strip_code_block (pyStrip A)) := by
  have hocc : sepToken.isPrefixOf ((A ++ sepToken ++ B).drop A.length) = true := by
    rw [List.append_assoc, List.drop_left, List.isPrefixOf_iff_prefix]
    exact List.prefix_append sepToken B
  obtain ⟨j, hj, hle⟩ := findSub_exists_of_isPrefixOf hocc
  have hj_occ := findSub_isPrefixOf hj
  have hA_le : A.length ≤ (A ++ sepToken ++ B).length := by
    simp [List.length_append]
  have hj_eq : j = A.length :=
    occurrenceCount_unique h hj_occ hocc (by omega) hA_le
  subst hj_eq
  have hcontains : containsSub sepToken (A ++ sepToken ++ B) = true := by
    unfold containsSub
    rw [hj]
    rfl
  have htake : (A ++ sepToken ++ B).take A.length = A := by
    rw [List.append_assoc]
    exact List.take_left A (sepToken ++ B)
  have hdrop : (A ++ sepToken ++ B).drop (A.length + sepToken.length) = B :=
    List.drop_left' (by simp [List.length_append])
  have hps : pySplit1 sepToken (A ++ sepToken ++ B) = [A, B] := by
    unfold pySplit1
    rw [hj]
    simp only [htake, hdrop]
  rw [generate_app_code_ok_eq,
    splitResponse_pair brief checks attachments_meta round_num hcontains hps]
  exact ⟨rfl, rfl⟩

theorem separator_once_split_exact_witness :
    occurrenceCount sepToken ((("abc").data) ++ sepToken ++ (("def").data)) = 1 ∧
    (generate_app_code (("b").data) [] [] 1 none
        (.ok ((("abc").data) ++ sepToken ++ (("def").data)))).readme =
      strip_code_block (pyStrip (("def").data)) :=
  ⟨by decide,
   (separator_once_split_exact (("abc").data) (("def").data) (("b").data)
      [] [] 1 none (by decide)).1⟩

/-- C1 fails as stated: in the response text
`"hello\n---README.md---\nworld"` the separator occurs exactly once and
the text before it code-fence-strips and trims to `"hello"`, but the
returned index.html is the skeleton-wrapped document, not `"hello"`
(the README half of the claim does hold here). -/
theorem separator_once_counterexample :
    occurrenceCount sepToken (("hello\n---README.md---\nworld").data) = 1 ∧
    strip_code_block (pyStrip (("hello\n").data)) = ("hello").data ∧
    (generate_app_code (("Todo").data) [] [] 1 none
        (.ok (("hello\n---README.md---\nworld").data))).indexHtml ≠
      ("hello").data ∧
    (generate_app_code (("Todo").data) [] [] 1 none
        (.ok (("hello\n---README.md---\nworld").data))).readme =
      ("world").data :=
  ⟨by decide, by decide, by decide, by decide⟩

/-- On every fallback outcome the parser input is the synthesized text. -/
theorem responseText_of_fallback {o : UpstreamOutcome}
    (h : isFallbackOutcome o = true) (brief : Str) (checks : List Str)
    (attachments_meta : Str) (round_num : Nat) :
    responseText brief checks attachments_meta round_num o =
      fallbackText brief checks attachments_meta round_num := by
  cases o <;> simp_all [isFallbackOutcome, responseText]

/-- `generate_app_code` is the repair step applied to the split of the
response text, for every outcome. -/
theorem generate_app_code_eq (brief : Str) (checks : List Str)
    (attachments_meta : Str) (round_num : Nat) (prev : Option Str)
    (o : UpstreamOutcome) :
    generate_app_code brief checks attachments_meta round_num prev o =
      { indexHtml := htmlRepair (splitResponse brief checks attachments_meta
          round_num (responseText brief checks attachments_meta round_num o)).1,
        readme := (splitResponse brief checks attachments_meta round_num
          (responseText brief checks attachments_meta round_num o)).2 } :=
  rfl

/-- C2 (amended): `generate_app_code` never raises, and the returned
index.html is always a non-empty string; the returned README is non-empty
under every upstream-failure outcome provided the synthesized fallback
text's first separator occurrence is the one the template inserted and
the fallback text is free of the triple-backtick delimiter (both hold
whenever brief, checks and attachment summary contain neither the
separator token nor triple backticks).  A successful upstream response
can, however, make the README empty (see the counterexample). -/
theorem generation_result_nonempty (brief : Str) (checks : List Str)
    (attachments_meta : Str) (round_num : Nat) (prev : Option Str)
    (o : UpstreamOutcome) :
    (generate_app_code brief checks attachments_meta round_num prev o).indexHtml ≠ [] ∧
    (isFallbackOutcome o = true →
     findSub sepToken (fallbackText brief checks attachments_meta round_num) =
       some (fallbackHtmlPart brief).length →
     containsSub fenceTok (fallbackText brief checks attachments_meta round_num) = false →
     (generate_app_code brief checks attachments_meta round_num prev o).readme ≠ []) := by
  constructor
  · rw [generate_app_code_eq]
    exact htmlRepair_ne_nil _
  · intro hfb hsplit hfence
    rw [generate_app_code_eq, responseText_of_fallback hfb]
    have hcontains : containsSub sepToken
        (fallbackText brief checks attachments_meta round_num) = true := by
      unfold containsSub
      rw [hsplit]
      rfl
    have hBdef : (fallbackText brief checks attachments_meta round_num).drop
        ((fallbackHtmlPart brief).length + sepToken.length) =
        '\n' :: (generate_readme_fallback brief checks attachments_meta round_num
          ++ [('\n' : Char)]) := by
      unfold fallbackText
      rw [List.append_assoc (fallbackHtmlPart brief ++ sepToken)]
      exact List.drop_left' (by simp [List.length_append])
    have hps : pySplit1 sepToken (fallbackText brief checks attachments_meta round_num) =
        [(fallbackText brief checks attachments_meta round_num).take
            (fallbackHtmlPart brief).length,
         '\n' :: (generate_readme_fallback brief checks attachments_meta round_num
           ++ [('\n' : Char)])] := by
      unfold pySplit1
      rw [hsplit]
      simp only [hBdef]
    rw [splitResponse_pair brief checks attachments_meta round_num hcontains hps]
    have hfenceP : containsSub fenceTok (pyStrip
        ('\n' :: (generate_readme_fallback brief checks attachments_meta round_num
          ++ [('\n' : Char)]))) = false := by
      cases hb : containsSub fenceTok (pyStrip
          ('\n' :: (generate_readme_fallback brief checks attachments_meta round_num
            ++ [('\n' : Char)]))) with
      | false => rfl
      | true =>
        have h1 := containsSub_pyStrip hb
        rw [← hBdef] at h1
        have h2 := containsSub_drop h1
        rw [hfence] at h2
        cases h2
    have hmemR : ('#' : Char) ∈
        generate_readme_fallback brief checks attachments_meta round_num := by
      have hh : ('#' : Char) ∈ ("# Auto-generated README (Round ").data := by decide
      simp [generate_readme_fallback, readmeHead, List.mem_append, hh]
    have hmem2 : ('#' : Char) ∈
        '\n' :: (generate_readme_fallback brief checks attachments_meta round_num
          ++ [('\n' : Char)]) :=
      List.mem_cons_of_mem _ (List.mem_append_left _ hmemR)
    have hmem3 := mem_pyStrip hmem2 (by decide)
    dsimp only
    unfold strip_code_block
    rw [if_neg (by rw [hfenceP]; exact Bool.false_ne_true)]
    exact pyStrip_ne_nil hmem3 (by decide)

theorem generation_result_nonempty_witness :
    isFallbackOutcome UpstreamOutcome.transportError = true ∧
    findSub sepToken (fallbackText (("Todo").data) [] [] 1) =
      some (fallbackHtmlPart (("Todo").data)).length ∧
    containsSub fenceTok (fallbackText (("Todo").data) [] [] 1) = false ∧
    (generate_app_code (("Todo").data) [] [] 1 none
        UpstreamOutcome.transportError).indexHtml ≠ [] ∧
    (generate_app_code (("Todo").data) [] [] 1 none
        UpstreamOutcome.transportError).readme ≠ [] :=
  ⟨rfl, by decide, by decide,
   (generation_result_nonempty (("Todo").data) [] [] 1 none
      UpstreamOutcome.transportError).1,
   (generation_result_nonempty (("Todo").data) [] [] 1 none
      UpstreamOutcome.transportError).2 rfl (by decide) (by decide)⟩

/-- C2 fails as stated: the successful upstream response
`"x---README.md---"` (separator present, nothing after it) makes
`generate_app_code` return an empty README, so the returned file
contents are not both non-empty. -/
theorem generation_empty_readme_counterexample :
    (generate_app_code (("Todo").data) [] [] 1 none
        (.ok (("x---README.md---").data))).readme = [] := by
  decide

/-- C6 (amended): every multi-line aggregate these functions emit is
joined with the two-character escape sequence backslash-n — the literal
characters `\` and `n`, not the newline character (the source writes the
separator as `"\\n"`): `summarize_attachment_meta` returns the
backslash-n-joined list of per-attachment lines (empty string for an
empty list), and `generate_readme_fallback` embeds the checks joined by
backslash-n in the README body. -/
theorem aggregates_joined_with_escaped_newline (fs : Str → Option Str)
    (ioMsg : Str → Str) (a b : SavedAttachment) (brief : Str)
    (checks : List Str) (attachments_meta : Str) (round_num : Nat) :
    summarize_attachment_meta fs ioMsg [] = [] ∧
    summarize_attachment_meta fs ioMsg [a, b] =
      summaryLine fs ioMsg a ++ escNL ++ summaryLine fs ioMsg b ∧
    containsSub (pyJoin escNL checks)
      (generate_readme_fallback brief checks attachments_meta round_num) = true := by
  refine ⟨rfl, rfl, ?_⟩
  apply containsSub_of_isPrefixOf
    (i := (readmeHead round_num brief ++ attachments_meta ++ readmeMid).length)
  unfold generate_readme_fallback
  rw [List.append_assoc (readmeHead round_num brief ++ attachments_meta ++ readmeMid),
    List.drop_left, List.isPrefixOf_iff_prefix]
  exact List.prefix_append _ _

/-- C6 fails as stated: two attachments summarized with non-text MIME
types are joined by the literal characters backslash and n, not by a
newline. -/
theorem summarize_newline_join_counterexample :
    summarize_attachment_meta (fun _ => none) (fun _ => [])
        [⟨("a").data, ("p").data, ("app").data, 1⟩,
         ⟨("b").data, ("q").data, ("app").data, 2⟩] ≠
      ("- a (app): 1 bytes").data ++ [('\n' : Char)] ++ ("- b (app): 2 bytes").data ∧
    summarize_attachment_meta (fun _ => none) (fun _ => [])
        [⟨("a").data, ("p").data, ("app").data, 1⟩,
         ⟨("b").data, ("q").data, ("app").data, 2⟩] =
      ("- a (app): 1 bytes").data ++ escNL ++ ("- b (app): 2 bytes").data :=
  ⟨by decide, by decide⟩

/-- C10: `summarize_attachment_meta` renders one well-formed line per
attachment whatever happens (the embedding models every caught exception
as a value, so no input aborts the loop); in particular an attachment
whose name ends in `.csv` but whose file holds fewer than three lines is
rendered as the could-not-read-preview placeholder (the `StopIteration`
raised by the third `next` has an empty message), not as a shorter
preview. -/
theorem csv_short_file_placeholder (fs : Str → Option Str)
    (ioMsg : Str → Str) :
    (∀ s : SavedAttachment, ∃ rest, summaryLine fs ioMsg s =
        ("- ").data ++ (s.name ++ ((" (").data ++ (s.mime ++ (("): ").data ++ rest))))) ∧
    (∀ (s : SavedAttachment) (content : Str),
        fs s.path = some content →
        pyEndsWith csvExt s.name = true →
        (pyFileLines (univNL content)).length < 3 →
        summaryLine fs ioMsg s = couldNotReadLine s.name s.mime []) := by
  constructor
  · intro s
    unfold summaryLine
    split
    · cases hfs : fs s.path with
      | none =>
        refine ⟨("(could not read preview: ").data ++ ioMsg s.path ++ (")").data, ?_⟩
        unfold couldNotReadLine
        simp [List.append_assoc]
      | some raw =>
        dsimp only
        by_cases hcsv : pyEndsWith csvExt s.name = true
        · rw [if_pos hcsv]
          by_cases hlen : 3 ≤ (pyFileLines (univNL raw)).length
          · rw [if_pos hlen]
            refine ⟨("preview: ").data ++
              pyJoin escNL (((pyFileLines (univNL raw)).take 3).map pyStrip), ?_⟩
            simp [List.append_assoc]
          · rw [if_neg hlen]
            refine ⟨("(could not read preview: ").data ++ (")").data, ?_⟩
            unfold couldNotReadLine
            simp [List.append_assoc]
        · rw [if_neg hcsv]
          refine ⟨("preview: ").data ++
            (pyReplaceNL ((univNL raw).take 1000)).take 1000, ?_⟩
          simp [List.append_assoc]
    · refine ⟨natStr s.size ++ (" bytes").data, ?_⟩
      simp [List.append_assoc]
  · intro s content hfs hcsv hlen
    have hcond : (textMimeTok.isPrefixOf s.mime ||
        previewExts.any (fun e => pyEndsWith e s.name)) = true := by
      have hmem : csvExt ∈ previewExts := by decide
      have hany : previewExts.any (fun e => pyEndsWith e s.name) = true :=
        List.any_eq_true.mpr ⟨csvExt, hmem, hcsv⟩
      rw [hany, Bool.or_true]
    unfold summaryLine
    rw [if_pos hcond, hfs]
    simp only []
    rw [if_pos hcsv, if_neg (by omega)]

theorem csv_short_file_placeholder_witness :
    ((fun p => if p = ("p").data then some (("x\ny\n").data) else none)
        (("a.csv").data : Str) = none) ∧
    summaryLine (fun p => if p = ("p").data then some (("x\ny\n").data) else none)
        (fun _ => []) ⟨("a.csv").data, ("p").data, ("text/csv").data, 5⟩ =
      couldNotReadLine (("a.csv").data) (("text/csv").data) [] :=
  ⟨by decide,
   (csv_short_file_placeholder
      (fun p => if p = ("p").data then some (("x\ny\n").data) else none)
      (fun _ => [])).2
     ⟨("a.csv").data, ("p").data, ("text/csv").data, 5⟩
     (("x\ny\n").data) (by decide) (by decide) (by decide)⟩

/-- C9: the upsert protocol.  On GET status 200 both upsert functions PUT
an update carrying the sha from the GET body; on GET status 404 they PUT
a creation without a sha; any other GET status raises (text variant) or
returns false (binary variant) without any PUT; and a PUT status other
than 200/201 raises (text variant) or returns false (binary variant). -/
theorem upsert_get_put_protocol (env : GhEnv) (repo : RepoHandle)
    (path content message : Str) :
    (env.getStatus = 200 →
       (create_or_update_file env repo path content message).2 =
         some ⟨repo.full_name, path, message, content, some env.getSha⟩ ∧
       (create_or_update_binary_file env repo path content message).2 =
         some ⟨repo.full_name, path, message, content, some env.getSha⟩) ∧
    (env.getStatus = 404 →
       (create_or_update_file env repo path content message).2 =
         some ⟨repo.full_name, path, message, content, none⟩ ∧
       (create_or_update_binary_file env repo path content message).2 =
         some ⟨repo.full_name, path, message, content, none⟩) ∧
    (env.getStatus ≠ 200 → env.getStatus ≠ 404 →
       (create_or_update_file env repo path content message).1 = UpsertResult.raised ∧
       (create_or_update_binary_file env repo path content message).1 = false ∧
       (create_or_update_file env repo path content message).2 = none ∧
       (create_or_update_binary_file env repo path content message).2 = none) ∧
    (∀ req : PutReq,
       (create_or_update_file env repo path content message).2 = some req →
       env.putStatus req ≠ 200 → env.putStatus req ≠ 201 →
       (create_or_update_file env repo path content message).1 = UpsertResult.raised) ∧
    (∀ req : PutReq,
       (create_or_update_binary_file env repo path content message).2 = some req →
       env.putStatus req ≠ 200 → env.putStatus req ≠ 201 →
       (create_or_update_binary_file env repo path content message).1 = false) := by
  by_cases h200 : env.getStatus = 200
  · have hf : create_or_update_file env repo path content message =
        (if env.putStatus ⟨repo.full_name, path, message, content, some env.getSha⟩ = 200
           then UpsertResult.ok else UpsertResult.raised,
         some ⟨repo.full_name, path, message, content, some env.getSha⟩) := by
      unfold create_or_update_file
      rw [if_pos h200]
    have hb : create_or_update_binary_file env repo path content message =
        (env.putStatus ⟨repo.full_name, path, message, content, some env.getSha⟩ == 200,
         some ⟨repo.full_name, path, message, content, some env.getSha⟩) := by
      unfold create_or_update_binary_file
      rw [if_pos h200]
    refine ⟨fun _ => ⟨by rw [hf], by rw [hb]⟩,
      fun h404 => absurd (h200.symm.trans h404) (by decide),
      fun hne _ => absurd h200 hne, ?_, ?_⟩
    · intro req hreq hn200 hn201
      rw [hf] at hreq ⊢
      injection hreq with hreq'
      subst hreq'
      exact if_neg hn200
    · intro req hreq hn200 hn201
      rw [hb] at hreq ⊢
      injection hreq with hreq'
      subst hreq'
      simp [hn200]
  · by_cases h404 : env.getStatus = 404
    · have hf : create_or_update_file env repo path content message =
          (if env.putStatus ⟨repo.full_name, path, message, content, none⟩ = 201
             then UpsertResult.ok else UpsertResult.raised,
           some ⟨repo.full_name, path, message, content, none⟩) := by
        unfold create_or_update_file
        rw [if_neg h200, if_pos h404]
      have hb : create_or_update_binary_file env repo path content message =
          (env.putStatus ⟨repo.full_name, path, message, content, none⟩ == 201,
           some ⟨repo.full_name, path, message, content, none⟩) := by
        unfold create_or_update_binary_file
        rw [if_neg h200, if_pos h404]
      refine ⟨fun h => absurd h h200, fun _ => ⟨by rw [hf], by rw [hb]⟩,
        fun _ hne => absurd h404 hne, ?_, ?_⟩
      · intro req hreq hn200 hn201
        rw [hf] at hreq ⊢
        injection hreq with hreq'
        subst hreq'
        exact if_neg hn201
      · intro req hreq hn200 hn201
        rw [hb] at hreq ⊢
        injection hreq with hreq'
        subst hreq'
        simp [hn201]
    · have hf : create_or_update_file env repo path content message =
          (UpsertResult.raised, none) := by
        unfold create_or_update_file
        rw [if_neg h200, if_neg h404]
      have hb : create_or_update_binary_file env repo path content message =
          (false, none) := by
        unfold create_or_update_binary_file
        rw [if_neg h200, if_neg h404]
      refine ⟨fun h => absurd h h200, fun h => absurd h h404,
        fun _ _ => ⟨by rw [hf], by rw [hb], by rw [hf], by rw [hb]⟩, ?_, ?_⟩
      · intro req hreq _ _
        rw [hf] at hreq
        cases hreq
      · intro req hreq _ _
        rw [hb] at hreq
        cases hreq

theorem upsert_get_put_protocol_witness :
    (create_or_update_file ⟨200, ("sha1").data, fun _ => 500⟩
        ⟨("r").data, ("o/r").data⟩ ("p").data ("c").data ("m").data).2 =
      some ⟨("o/r").data, ("p").data, ("m").data, ("c").data, some (("sha1").data)⟩ ∧
    (create_or_update_file ⟨200, ("sha1").data, fun _ => 500⟩
        ⟨("r").data, ("o/r").data⟩ ("p").data ("c").data ("m").data).1 =
      UpsertResult.raised ∧
    (create_or_update_binary_file ⟨404, ("sha1").data, fun _ => 500⟩
        ⟨("r").data, ("o/r").data⟩ ("p").data ("c").data ("m").data).2 =
      some ⟨("o/r").data, ("p").data, ("m").data, ("c").data, none⟩ ∧
    (create_or_update_binary_file ⟨404, ("sha1").data, fun _ => 500⟩
        ⟨("r").data, ("o/r").data⟩ ("p").data ("c").data ("m").data).1 = false :=
  ⟨((upsert_get_put_protocol ⟨200, ("sha1").data, fun _ => 500⟩
      ⟨("r").data, ("o/r").data⟩ ("p").data ("c").data ("m").data).1 rfl).1,
   (upsert_get_put_protocol ⟨200, ("sha1").data, fun _ => 500⟩
      ⟨("r").data, ("o/r").data⟩ ("p").data ("c").data ("m").data).2.2.2.1
     ⟨("o/r").data, ("p").data, ("m").data, ("c").data, some (("sha1").data)⟩
     (by decide) (by decide) (by decide),
   ((upsert_get_put_protocol ⟨404, ("sha1").data, fun _ => 500⟩
      ⟨("r").data, ("o/r").data⟩ ("p").data ("c").data ("m").data).2.1 rfl).2,
   (upsert_get_put_protocol ⟨404, ("sha1").data, fun _ => 500⟩
      ⟨("r").data, ("o/r").data⟩ ("p").data ("c").data ("m").data).2.2.2.2
     ⟨("o/r").data, ("p").data, ("m").data, ("c").data, none⟩
     (by decide) (by decide) (by decide)⟩
